import Mathlib

/-!
Shallow embedding of the EV charging simulation core
(src/lib/simulation: random.ts, ev.ts, distributions.ts, chargepoint.ts,
station.ts, statistics.ts, index.ts).

Modelling conventions:
- JavaScript numbers are modelled as exact rationals (ℚ); the quantities the
  simulation manipulates (probabilities, kWh, kW) are decimal constants and
  sums/products of them, so ℚ is the exact-arithmetic reading of the code.
- The JavaScript remainder operator on integers truncates toward zero, which
  is Int.tmod.
- Mutable objects become explicit state passing: a method returning x and
  mutating this becomes a function returning (x, newThis).
- console.log calls are observational only and are omitted.
-/

/-! ### config.ts -/

def POWER_PER_CHARGEPOINT_KW : ℚ := 11

def DAYS_IN_YEAR : Nat := 365

def TICKS_PER_HOUR : Nat := 4

def HOURS_PER_DAY : Nat := 24

def TOTAL_TICKS_PER_YEAR : Nat := DAYS_IN_YEAR * HOURS_PER_DAY * TICKS_PER_HOUR

def KWH_PER_100KM : ℚ := 18

def ARRIVAL_PROBABILITY_PER_HOUR_T1 : List ℚ :=
  [0.0094, 0.0094, 0.0094, 0.0094, 0.0094, 0.0094, 0.0094, 0.0094,
   0.0283, 0.0283, 0.0566, 0.0566, 0.0566, 0.0755, 0.0755, 0.0755,
   0.1038, 0.1038, 0.1038, 0.0472, 0.0472, 0.0472, 0.0094, 0.0094]

structure DemandDistributionItem where
  value : ℚ
  probability : ℚ
  deriving DecidableEq, Repr

def CHARGING_DEMAND_KM_DISTRIBUTION_T2 : List DemandDistributionItem :=
  [⟨0, 0.3431⟩, ⟨5, 0.049⟩, ⟨10, 0.098⟩, ⟨20, 0.1176⟩, ⟨30, 0.0882⟩,
   ⟨50, 0.1176⟩, ⟨100, 0.1078⟩, ⟨200, 0.049⟩, ⟨300, 0.0294⟩]

def DEFAULT_SIMULATION_SEED : Int := 12345

/-! ### random.ts -/

structure SeededRandom where
  seed : Int
  deriving DecidableEq, Repr

/-- Constructor of SeededRandom: seed % 2147483647 with the JS truncating
remainder, then + 2147483646 if the result is ≤ 0. -/
def mkSeededRandom (seed : Int) : SeededRandom :=
  let s := seed.tmod 2147483647
  if s ≤ 0 then ⟨s + 2147483646⟩ else ⟨s⟩

/-- State update of next(): seed = (seed * 16807) % 2147483647. -/
def SeededRandom.nextState (r : SeededRandom) : SeededRandom :=
  ⟨(r.seed * 16807).tmod 2147483647⟩

/-- Return value of next(): (seed' - 1) / 2147483646 where seed' is the
updated state. -/
def SeededRandom.nextVal (r : SeededRandom) : ℚ :=
  (((r.seed * 16807).tmod 2147483647 - 1 : Int) : ℚ) / 2147483646

/-- next(): returns the drawn float together with the mutated generator. -/
def SeededRandom.next (r : SeededRandom) : ℚ × SeededRandom :=
  (r.nextVal, r.nextState)

/-- nextInt(min, max): Math.floor(next() * (max - min)) + min. -/
def SeededRandom.nextInt (r : SeededRandom) (min max : Int) : Int × SeededRandom :=
  (⌊r.nextVal * ((max : ℚ) - (min : ℚ))⌋ + min, r.nextState)

/-! ### ev.ts -/

structure ElectricVehicle where
  id : Nat
  energyNeededKwh : ℚ
  energyReceivedKwh : ℚ
  deriving DecidableEq, Repr

def mkElectricVehicle (id : Nat) (energyNeededKwh : ℚ) : ElectricVehicle :=
  ⟨id, energyNeededKwh, 0⟩

/-- charge(energyKwh): delivers min(energyKwh, needed - received), adds it to
received, returns the delivered amount together with the mutated vehicle. -/
def ElectricVehicle.charge (ev : ElectricVehicle) (energyKwh : ℚ) :
    ℚ × ElectricVehicle :=
  let energyCanReceive := ev.energyNeededKwh - ev.energyReceivedKwh
  let actualEnergyReceived := min energyKwh energyCanReceive
  (actualEnergyReceived,
   { ev with energyReceivedKwh := ev.energyReceivedKwh + actualEnergyReceived })

/-- isFullyCharged(): received ≥ needed - 0.0001. -/
def ElectricVehicle.isFullyCharged (ev : ElectricVehicle) : Bool :=
  ev.energyNeededKwh - 0.0001 ≤ ev.energyReceivedKwh

/-! ### distributions.ts -/

/-- Loop body of getWeightedRandomChoice: walk the distribution accumulating
probabilities, returning the first value whose running sum strictly exceeds
the draw; the fallback is returned when no entry triggers. -/
def weightedWalk (rand : ℚ) (cumulativeProbability : ℚ) (fallback : ℚ) :
    List DemandDistributionItem → ℚ
  | [] => fallback
  | item :: rest =>
    if rand < cumulativeProbability + item.probability then item.value
    else weightedWalk rand (cumulativeProbability + item.probability) fallback rest

/-- getWeightedRandomChoice(distribution, randomGenerator): throws on an empty
distribution, otherwise draws one float and walks the distribution; the
fallback for float under-summing is the last entry's value. -/
def getWeightedRandomChoice (distribution : List DemandDistributionItem)
    (randomGenerator : SeededRandom) : Except String (ℚ × SeededRandom) :=
  if distribution.isEmpty then
    Except.error "Distribution cannot be empty."
  else
    let rand := randomGenerator.nextVal
    Except.ok
      (weightedWalk rand 0 ((distribution.getLast?.getD ⟨0, 0⟩).value) distribution,
       randomGenerator.nextState)

/-! ### chargepoint.ts -/

structure Chargepoint where
  id : Nat
  powerKw : ℚ
  currentEV : Option ElectricVehicle
  deriving DecidableEq, Repr

def mkChargepoint (id : Nat) : Chargepoint :=
  ⟨id, POWER_PER_CHARGEPOINT_KW, none⟩

def Chargepoint.isAvailable (cp : Chargepoint) : Bool :=
  cp.currentEV.isNone

/-- assignEV(ev): fails when occupied, or when the vehicle needs no energy
(the JS test !ev.energyNeededKwh || ev.energyNeededKwh <= 0 is needed ≤ 0 on
exact numbers); on success stores the vehicle. Returns the boolean result
together with the mutated chargepoint. -/
def Chargepoint.assignEV (cp : Chargepoint) (ev : ElectricVehicle) :
    Bool × Chargepoint :=
  if cp.isAvailable = false then (false, cp)
  else if ev.energyNeededKwh ≤ 0 then (false, cp)
  else (true, { cp with currentEV := some ev })

/-- releaseEV(): drops the held vehicle if any. -/
def Chargepoint.releaseEV (cp : Chargepoint) : Chargepoint :=
  { cp with currentEV := none }

/-- processChargingTick(): no-op returning 0 when idle; otherwise delivers
powerKw * (1 / TICKS_PER_HOUR) to the held vehicle and releases it when it
reports fully charged. Returns the delivered energy and the mutated
chargepoint. -/
def Chargepoint.processChargingTick (cp : Chargepoint) : ℚ × Chargepoint :=
  match cp.currentEV with
  | none => (0, cp)
  | some ev =>
    let res := ev.charge (cp.powerKw * (1 / (TICKS_PER_HOUR : ℚ)))
    if res.2.isFullyCharged then (res.1, cp.releaseEV)
    else (res.1, { cp with currentEV := some res.2 })

/-- Instrumented processChargingTick: identical computation, but also reports
the final state of a vehicle released during the call, so that a run can keep
a ledger of every vehicle ever created (the JS code drops the reference; the
object itself still exists with its final field values). -/
def Chargepoint.processChargingTickR (cp : Chargepoint) :
    ℚ × Chargepoint × List ElectricVehicle :=
  match cp.currentEV with
  | none => (0, cp, [])
  | some ev =>
    let res := ev.charge (cp.powerKw * (1 / (TICKS_PER_HOUR : ℚ)))
    if res.2.isFullyCharged then (res.1, cp.releaseEV, [res.2])
    else (res.1, { cp with currentEV := some res.2 }, [])

/-! ### station.ts -/

structure ChargingStation where
  chargepoints : List Chargepoint
  deriving DecidableEq, Repr

def mkChargingStation (numChargepoints : Nat) : ChargingStation :=
  ⟨(List.range numChargepoints).map mkChargepoint⟩

/-- findAvailableChargepoint(): the first chargepoint in array order whose
isAvailable() holds, or null. -/
def ChargingStation.findAvailableChargepoint (st : ChargingStation) :
    Option Chargepoint :=
  st.chargepoints.find? (fun cp => cp.isAvailable)

def ChargingStation.getTotalChargepoints (st : ChargingStation) : Nat :=
  st.chargepoints.length

/-! ### statistics.ts -/

structure SimulationStatistics where
  totalEnergyConsumedKwh : ℚ
  actualMaxPowerDemandKw : ℚ
  deriving DecidableEq, Repr

def mkSimulationStatistics : SimulationStatistics := ⟨0, 0⟩

/-- recordTickData(energy, power): adds the energy to the running total and
replaces the running maximum when the tick's power demand exceeds it. -/
def SimulationStatistics.recordTickData (s : SimulationStatistics)
    (energyThisTickKwh powerDemandThisTickKw : ℚ) : SimulationStatistics :=
  { totalEnergyConsumedKwh := s.totalEnergyConsumedKwh + energyThisTickKwh,
    actualMaxPowerDemandKw :=
      if s.actualMaxPowerDemandKw < powerDemandThisTickKw then powerDemandThisTickKw
      else s.actualMaxPowerDemandKw }

/-! ### index.ts (EVChargingSimulation) -/

/-- Accumulator for the per-tick loop over the station's chargepoints. -/
structure TickAcc where
  rng : SeededRandom
  nextEvId : Nat
  energy : ℚ
  power : ℚ
  cps : List Chargepoint
  finished : List ElectricVehicle
  deriving Repr

/-- Common tail of the per-chargepoint loop body: accumulate delivered energy,
add the chargepoint's rated power when it ends the iteration occupied, append
the chargepoint's new state, and record any vehicle released this iteration. -/
def finishCP (acc : TickAcc) (rng : SeededRandom) (nextEvId : Nat) (delivered : ℚ)
    (cp : Chargepoint) (released : List ElectricVehicle) : TickAcc :=
  { rng := rng, nextEvId := nextEvId,
    energy := acc.energy + delivered,
    power := acc.power + (if cp.isAvailable then 0 else cp.powerKw),
    cps := acc.cps ++ [cp],
    finished := acc.finished ++ released }

/-- Body of the per-chargepoint loop inside EVChargingSimulation.run for one
chargepoint at the given hour of day. -/
def tickCP (currentHour : Nat) (acc : TickAcc) (cp : Chargepoint) : TickAcc :=
  if cp.isAvailable then
    let hourlyArrivalProb := ARRIVAL_PROBABILITY_PER_HOUR_T1.getD currentHour 0
    let tickArrivalProb := hourlyArrivalProb / (TICKS_PER_HOUR : ℚ)
    let r := acc.rng.nextVal
    let rng1 := acc.rng.nextState
    if r < tickArrivalProb then
      match getWeightedRandomChoice CHARGING_DEMAND_KM_DISTRIBUTION_T2 rng1 with
      | Except.error _ => finishCP acc rng1 acc.nextEvId 0 cp []
      | Except.ok (demandKm, rng2) =>
        let energyNeededKwh := demandKm / 100 * KWH_PER_100KM
        if 0 < energyNeededKwh then
          let newEV := mkElectricVehicle acc.nextEvId energyNeededKwh
          let assigned := cp.assignEV newEV
          if assigned.1 then
            let res := assigned.2.processChargingTickR
            finishCP acc rng2 (acc.nextEvId + 1) res.1 res.2.1 res.2.2
          else
            finishCP acc rng2 (acc.nextEvId + 1) 0 assigned.2 []
        else
          finishCP acc rng2 acc.nextEvId 0 cp []
    else
      finishCP acc rng1 acc.nextEvId 0 cp []
  else
    let res := cp.processChargingTickR
    finishCP acc acc.rng acc.nextEvId res.1 res.2.1 res.2.2

/-- State of one simulation between ticks, plus the ledger of vehicles
already released (finished). -/
structure SimState where
  rng : SeededRandom
  nextEvId : Nat
  chargepoints : List Chargepoint
  stats : SimulationStatistics
  finished : List ElectricVehicle
  deriving Repr

/-- One iteration of the tick loop of EVChargingSimulation.run. -/
def simTick (tick : Nat) (st : SimState) : SimState :=
  let currentHour := (tick % (HOURS_PER_DAY * TICKS_PER_HOUR)) / TICKS_PER_HOUR
  let acc := st.chargepoints.foldl (tickCP currentHour)
    ⟨st.rng, st.nextEvId, 0, 0, [], st.finished⟩
  { rng := acc.rng, nextEvId := acc.nextEvId, chargepoints := acc.cps,
    stats := st.stats.recordTickData acc.energy acc.power,
    finished := acc.finished }

/-- State set up by the EVChargingSimulation constructor. -/
def initState (numChargepoints : Nat) (seed : Int) : SimState :=
  ⟨mkSeededRandom seed, 1, (mkChargingStation numChargepoints).chargepoints,
   mkSimulationStatistics, []⟩

/-- EVChargingSimulation.run after the first maxTicks ticks (ticks 0 to
maxTicks - 1, in order). -/
def runSim (numChargepoints : Nat) (seed : Int) : Nat → SimState
  | 0 => initState numChargepoints seed
  | n + 1 => simTick n (runSim numChargepoints seed n)

/-! ### Derived notions used by the statements -/

/-- Vehicles currently plugged into some chargepoint of the list. -/
def heldEVs (cps : List Chargepoint) : List ElectricVehicle :=
  cps.filterMap (fun cp => cp.currentEV)

/-- Every vehicle created during the run, each with its final field values:
vehicles already released, followed by vehicles still on a chargepoint. -/
def allVehicles (st : SimState) : List ElectricVehicle :=
  st.finished ++ heldEVs st.chargepoints

/-- Sum of the energyReceivedKwh fields of a list of vehicles. -/
def sumReceived (evs : List ElectricVehicle) : ℚ :=
  (evs.map (fun ev => ev.energyReceivedKwh)).sum

/-- Invariant of a single chargepoint maintained by the engine: the rated
power is the configured constant and any held vehicle has a received energy
between 0 and its need. -/
def CPinv (cp : Chargepoint) : Prop :=
  cp.powerKw = POWER_PER_CHARGEPOINT_KW ∧
  ∀ ev, cp.currentEV = some ev →
    0 ≤ ev.energyReceivedKwh ∧ ev.energyReceivedKwh ≤ ev.energyNeededKwh

/-- RNG state as normalized by the constructor: inside [1, 2147483646]. -/
def stateInRange (r : SeededRandom) : Prop :=
  1 ≤ r.seed ∧ r.seed ≤ 2147483646

/-- Spec reading of the weighted-choice algorithm, for comparison with the
source function: find the first index whose running cumulative probability
(the sum of the probabilities of the entries up to and including it) strictly
exceeds the draw and return that entry's value; if no index qualifies, return
the last entry's value. -/
def specWeightedChoice (r : ℚ) (dist : List DemandDistributionItem) : ℚ :=
  match (List.range dist.length).find?
      (fun i => decide (r < ((dist.take (i + 1)).map
        (fun it => it.probability)).sum)) with
  | some i => ((dist.drop i).headD ⟨0, 0⟩).value
  | none => (dist.getLast?.getD ⟨0, 0⟩).value

/-- Invariant maintained by the engine across ticks: the station keeps its
size, every chargepoint satisfies CPinv, the running energy total equals the
sum of the received energies of every vehicle created so far, and the running
power maximum is between 0 and the theoretical maximum of the station. -/
def SimInv (numChargepoints : Nat) (st : SimState) : Prop :=
  st.chargepoints.length = numChargepoints ∧
  (∀ cp ∈ st.chargepoints, CPinv cp) ∧
  st.stats.totalEnergyConsumedKwh = sumReceived (allVehicles st) ∧
  0 ≤ st.stats.actualMaxPowerDemandKw ∧
  st.stats.actualMaxPowerDemandKw
    ≤ POWER_PER_CHARGEPOINT_KW * (numChargepoints : ℚ)

/-! ### Claim theorems -/

/-- C2 counterexample: with seed 1 the first next() does not return
16807 / 2147483646; the update runs before the return, so the state is 16807
but the returned value is (16807 - 1) / 2147483646. -/
theorem C2_counterexample : ((mkSeededRandom 1).next).1 ≠ (16807 : ℚ) / 2147483646 := by
  have h1 : mkSeededRandom 1 = ⟨1⟩ := by decide
  have h2 : ((1 : Int) * 16807).tmod 2147483647 = 16807 := by decide
  rw [SeededRandom.next, h1, SeededRandom.nextVal, h2]
  norm_num

/-- C2 (amended): for a SeededRandom constructed with seed 1, the first call
to next() returns exactly 16806 / 2147483646. -/
theorem C2_first_draw_seed_one :
    ((mkSeededRandom 1).next).1 = (16806 : ℚ) / 2147483646 := by
  have h1 : mkSeededRandom 1 = ⟨1⟩ := by decide
  have h2 : ((1 : Int) * 16807).tmod 2147483647 = 16807 := by decide
  rw [SeededRandom.next, h1, SeededRandom.nextVal, h2]
  norm_num

/-- C5: for a vehicle with 0 ≤ received ≤ needed and a nonnegative amount,
charge(amount) returns min(amount, needed - received) ≥ 0, adds exactly the
returned amount to received, leaves the need unchanged, and preserves
0 ≤ received ≤ needed. -/
theorem C5_charge_clamps (ev : ElectricVehicle) (amount : ℚ)
    (h0 : 0 ≤ ev.energyReceivedKwh)
    (h1 : ev.energyReceivedKwh ≤ ev.energyNeededKwh)
    (h2 : 0 ≤ amount) :
    (ev.charge amount).1 = min amount (ev.energyNeededKwh - ev.energyReceivedKwh) ∧
    0 ≤ (ev.charge amount).1 ∧
    (ev.charge amount).2.energyReceivedKwh
      = ev.energyReceivedKwh + (ev.charge amount).1 ∧
    (ev.charge amount).2.energyNeededKwh = ev.energyNeededKwh ∧
    0 ≤ (ev.charge amount).2.energyReceivedKwh ∧
    (ev.charge amount).2.energyReceivedKwh ≤ (ev.charge amount).2.energyNeededKwh := by
  have e1 : (ev.charge amount).1
      = min amount (ev.energyNeededKwh - ev.energyReceivedKwh) := rfl
  have e2 : (ev.charge amount).2.energyReceivedKwh
      = ev.energyReceivedKwh + min amount (ev.energyNeededKwh - ev.energyReceivedKwh) := rfl
  have e3 : (ev.charge amount).2.energyNeededKwh = ev.energyNeededKwh := rfl
  have hmin0 : 0 ≤ min amount (ev.energyNeededKwh - ev.energyReceivedKwh) :=
    le_min h2 (sub_nonneg.mpr h1)
  have hminr := min_le_right amount (ev.energyNeededKwh - ev.energyReceivedKwh)
  refine ⟨e1, ?_, ?_, e3, ?_, ?_⟩
  · rw [e1]; exact hmin0
  · rw [e2, e1]
  · rw [e2]; linarith
  · rw [e2, e3]; linarith

/-- Witness for C5 at a vehicle needing 10 kWh and a proposed delivery of 15. -/
theorem C5_charge_clamps_witness :
    (0 ≤ (mkElectricVehicle 1 10).energyReceivedKwh) ∧
    ((mkElectricVehicle 1 10).energyReceivedKwh ≤ (mkElectricVehicle 1 10).energyNeededKwh) ∧
    ((0 : ℚ) ≤ 15) ∧
    (((mkElectricVehicle 1 10).charge 15).1
      = min 15 ((mkElectricVehicle 1 10).energyNeededKwh
          - (mkElectricVehicle 1 10).energyReceivedKwh) ∧
     0 ≤ ((mkElectricVehicle 1 10).charge 15).1 ∧
     ((mkElectricVehicle 1 10).charge 15).2.energyReceivedKwh
       = (mkElectricVehicle 1 10).energyReceivedKwh
         + ((mkElectricVehicle 1 10).charge 15).1 ∧
     ((mkElectricVehicle 1 10).charge 15).2.energyNeededKwh
       = (mkElectricVehicle 1 10).energyNeededKwh ∧
     0 ≤ ((mkElectricVehicle 1 10).charge 15).2.energyReceivedKwh ∧
     ((mkElectricVehicle 1 10).charge 15).2.energyReceivedKwh
       ≤ ((mkElectricVehicle 1 10).charge 15).2.energyNeededKwh) :=
  ⟨by norm_num [mkElectricVehicle], by norm_num [mkElectricVehicle], by norm_num,
   C5_charge_clamps (mkElectricVehicle 1 10) 15
     (by norm_num [mkElectricVehicle]) (by norm_num [mkElectricVehicle]) (by norm_num)⟩

/-- C7: assignEV on an occupied chargepoint returns false and returns the
chargepoint unchanged, so the previously held vehicle is still held with the
same field values. -/
theorem C7_assign_occupied (cp : Chargepoint) (ev : ElectricVehicle)
    (h : cp.isAvailable = false) : cp.assignEV ev = (false, cp) := by
  simp [Chargepoint.assignEV, h]

/-- Witness for C7 at a chargepoint holding vehicle 1 and an attempted second
vehicle. -/
theorem C7_assign_occupied_witness :
    ((⟨0, 11, some (mkElectricVehicle 1 10)⟩ : Chargepoint).isAvailable = false) ∧
    (⟨0, 11, some (mkElectricVehicle 1 10)⟩ : Chargepoint).assignEV
        (mkElectricVehicle 2 5)
      = (false, (⟨0, 11, some (mkElectricVehicle 1 10)⟩ : Chargepoint)) :=
  ⟨rfl, C7_assign_occupied _ (mkElectricVehicle 2 5) rfl⟩

/-- Helper: List.find? returns the element at index i when it satisfies the
predicate and everything before it fails the predicate. -/
theorem find?_at_first_index {α : Type} (p : α → Bool) :
    ∀ (l : List α) (i : Nat) (hi : i < l.length),
      p (l.get ⟨i, hi⟩) = true →
      (∀ x ∈ l.take i, p x = false) →
      l.find? p = some (l.get ⟨i, hi⟩)
  | [], i, hi, _, _ => by simp at hi
  | a :: t, 0, _, hp, _ => by
    simpa [List.find?_cons] using (by simpa using hp : p a = true) ▸ rfl
  | a :: t, i + 1, hi, hp, hbefore => by
    have ha : p a = false := hbefore a (by simp)
    have ht := find?_at_first_index p t i (by simpa using hi)
      (by simpa using hp)
      (fun x hx => hbefore x (by simp [List.take]; exact Or.inr hx))
    simp [List.find?_cons, ha]
    simpa using ht

/-- C6: when processChargingTick on a chargepoint holding a vehicle delivers
energy that leaves the vehicle fully charged, the chargepoint is idle when the
call returns, and a station reaching that chargepoint returns it from
findAvailableChargepoint. -/
theorem C6_release_on_completion (cp : Chargepoint) (ev : ElectricVehicle)
    (h : cp.currentEV = some ev)
    (hfull : ((ev.charge (cp.powerKw * (1 / (TICKS_PER_HOUR : ℚ)))).2).isFullyCharged
      = true) :
    (cp.processChargingTick).2.isAvailable = true ∧
    (ChargingStation.mk [(cp.processChargingTick).2]).findAvailableChargepoint
      = some (cp.processChargingTick).2 := by
  have hcp : cp.processChargingTick
      = ((ev.charge (cp.powerKw * (1 / (TICKS_PER_HOUR : ℚ)))).1, cp.releaseEV) := by
    unfold Chargepoint.processChargingTick
    rw [h]
    simp only [hfull, if_true]
  rw [hcp]
  refine ⟨rfl, ?_⟩
  simp [ChargingStation.findAvailableChargepoint, List.find?_cons,
    Chargepoint.releaseEV, Chargepoint.isAvailable]

/-- Witness for C6: chargepoint 0 holds vehicle 1 needing 2 kWh with nothing
received yet; one tick at 11 kW delivers all 2 kWh and frees the chargepoint. -/
theorem C6_release_on_completion_witness :
    ((⟨0, 11, some (ElectricVehicle.mk 1 2 0)⟩ : Chargepoint).currentEV
      = some (ElectricVehicle.mk 1 2 0)) ∧
    (((ElectricVehicle.mk 1 2 0).charge
        ((11 : ℚ) * (1 / (TICKS_PER_HOUR : ℚ)))).2.isFullyCharged = true) ∧
    ((⟨0, 11, some (ElectricVehicle.mk 1 2 0)⟩ :
        Chargepoint).processChargingTick).2.isAvailable = true ∧
    (ChargingStation.mk [((⟨0, 11, some (ElectricVehicle.mk 1 2 0)⟩ :
        Chargepoint).processChargingTick).2]).findAvailableChargepoint
      = some ((⟨0, 11, some (ElectricVehicle.mk 1 2 0)⟩ :
        Chargepoint).processChargingTick).2 :=
  ⟨rfl,
   by norm_num [ElectricVehicle.charge, ElectricVehicle.isFullyCharged, TICKS_PER_HOUR],
   C6_release_on_completion _ (ElectricVehicle.mk 1 2 0) rfl
     (by norm_num [ElectricVehicle.charge, ElectricVehicle.isFullyCharged, TICKS_PER_HOUR])⟩

/-- C8: findAvailableChargepoint returns none exactly when every chargepoint
is occupied, and returns the chargepoint at the lowest index among the idle
ones: if position i is idle and all positions before i are occupied, position
i is returned. -/
theorem C8_first_fit (st : ChargingStation) :
    (st.findAvailableChargepoint = none
      ↔ ∀ cp ∈ st.chargepoints, cp.isAvailable = false) ∧
    ∀ (i : Nat) (hi : i < st.chargepoints.length),
      (st.chargepoints.get ⟨i, hi⟩).isAvailable = true →
      (∀ cp ∈ st.chargepoints.take i, cp.isAvailable = false) →
      st.findAvailableChargepoint = some (st.chargepoints.get ⟨i, hi⟩) := by
  constructor
  · unfold ChargingStation.findAvailableChargepoint
    rw [List.find?_eq_none]
    constructor
    · intro h cp hcp
      have := h cp hcp
      simpa using this
    · intro h cp hcp
      simp [h cp hcp]
  · intro i hi hp hbefore
    exact find?_at_first_index _ st.chargepoints i hi hp hbefore

/-- Witness for C8: a fresh two-chargepoint station (both idle) returns
chargepoint 0. -/
theorem C8_first_fit_witness :
    ((mkChargingStation 2).chargepoints.get
        ⟨0, by norm_num [mkChargingStation]⟩).isAvailable = true ∧
    (mkChargingStation 2).findAvailableChargepoint = some (mkChargepoint 0) :=
  ⟨rfl,
   by
    have h := (C8_first_fit (mkChargingStation 2)).2 0
      (by norm_num [mkChargingStation]) rfl (by simp)
    simpa [mkChargingStation] using h⟩

/-- Helper: the accumulator walk of getWeightedRandomChoice returns the value
at the first index whose running cumulative sum (offset by the accumulator)
strictly exceeds the draw, and the fallback when no index qualifies. -/
theorem weightedWalk_eq_find (r : ℚ) :
    ∀ (l : List DemandDistributionItem) (c : ℚ) (fb : ℚ),
      weightedWalk r c fb l =
        match (List.range l.length).find?
            (fun i => decide (r < c + ((l.take (i + 1)).map
              (fun it => it.probability)).sum)) with
        | some i => ((l.drop i).headD ⟨0, 0⟩).value
        | none => fb
  | [], c, fb => by simp [weightedWalk]
  | item :: rest, c, fb => by
    rw [weightedWalk]
    have hrange : List.range (item :: rest).length
        = 0 :: (List.range rest.length).map Nat.succ := by
      simp [List.range_succ_eq_map]
    rw [hrange, List.find?_cons]
    by_cases hr : r < c + item.probability
    · have h0 : (fun i => decide (r < c + (((item :: rest).take (i + 1)).map
          (fun it => it.probability)).sum)) 0 = true := by
        simp only [List.take_succ_cons, List.take_zero, List.map_cons, List.map_nil,
          List.sum_cons, List.sum_nil, add_zero, decide_eq_true_eq]
        exact hr
      rw [if_pos hr]
      simp only [h0]
      simp
    · have h0 : (fun i => decide (r < c + (((item :: rest).take (i + 1)).map
          (fun it => it.probability)).sum)) 0 = false := by
        simp only [List.take_succ_cons, List.take_zero, List.map_cons, List.map_nil,
          List.sum_cons, List.sum_nil, add_zero, decide_eq_false_iff_not]
        exact hr
      rw [if_neg hr]
      simp only [h0]
      rw [List.find?_map]
      have hpred : ((fun i => decide (r < c + (((item :: rest).take (i + 1)).map
            (fun it => it.probability)).sum)) ∘ Nat.succ)
          = (fun i => decide (r < (c + item.probability) + ((rest.take (i + 1)).map
              (fun it => it.probability)).sum)) := by
        funext i
        simp only [Function.comp_apply, List.take_succ_cons, List.map_cons,
          List.sum_cons, decide_eq_decide]
        rw [add_assoc]
      rw [hpred, weightedWalk_eq_find r rest (c + item.probability) fb]
      rcases hfind : (List.range rest.length).find?
          (fun i => decide (r < (c + item.probability) + ((rest.take (i + 1)).map
            (fun it => it.probability)).sum)) with _ | j
      · simp
      · simp

/-- Helper: started at accumulator 0 with the last entry's value as fallback,
the walk agrees with the spec reading of the weighted choice. -/
theorem weightedWalk_zero_eq_spec (r : ℚ) (l : List DemandDistributionItem) :
    weightedWalk r 0 ((l.getLast?.getD ⟨0, 0⟩).value) l = specWeightedChoice r l := by
  rw [weightedWalk_eq_find r l 0 ((l.getLast?.getD ⟨0, 0⟩).value)]
  unfold specWeightedChoice
  have hpred : (fun i => decide (r < 0 + ((l.take (i + 1)).map
        (fun it => it.probability)).sum))
      = (fun i => decide (r < ((l.take (i + 1)).map
        (fun it => it.probability)).sum)) := by
    funext i
    rw [zero_add]
  rw [hpred]

/-- C4: getWeightedRandomChoice fails with the InvalidArgument error exactly
when the distribution is empty; on a non-empty distribution it consumes
exactly one draw (the returned generator is one step ahead) and returns the
value of the first entry whose running cumulative probability strictly
exceeds the draw, or the last entry's value when no entry qualifies. -/
theorem C4_weighted_choice (dist : List DemandDistributionItem)
    (rng : SeededRandom) :
    (getWeightedRandomChoice dist rng = Except.error "Distribution cannot be empty."
      ↔ dist = []) ∧
    (dist ≠ [] →
      getWeightedRandomChoice dist rng
        = Except.ok (specWeightedChoice rng.nextVal dist, rng.nextState)) := by
  cases dist with
  | nil =>
    refine ⟨by simp [getWeightedRandomChoice], fun h => absurd rfl h⟩
  | cons a t =>
    constructor
    · constructor
      · intro h
        rw [getWeightedRandomChoice] at h
        simp at h
      · intro h
        simp at h
    · intro _
      rw [getWeightedRandomChoice]
      simp only [List.isEmpty_cons, Bool.false_eq_true, if_false]
      rw [weightedWalk_zero_eq_spec]

/-- Witness for C4 at the spec's example distribution and seed 1. -/
theorem C4_weighted_choice_witness :
    (([⟨0, 0.5⟩, ⟨10, 0.5⟩] : List DemandDistributionItem) ≠ []) ∧
    getWeightedRandomChoice [⟨0, 0.5⟩, ⟨10, 0.5⟩] (mkSeededRandom 1)
      = Except.ok
          (specWeightedChoice (mkSeededRandom 1).nextVal [⟨0, 0.5⟩, ⟨10, 0.5⟩],
           (mkSeededRandom 1).nextState) :=
  ⟨by simp, (C4_weighted_choice [⟨0, 0.5⟩, ⟨10, 0.5⟩] (mkSeededRandom 1)).2 (by simp)⟩

/-- Helper: the JS truncating remainder by 2147483647 lies strictly between
-2147483647 and 2147483647. -/
theorem tmod_2147483647_bounds (a : Int) :
    -2147483647 < a.tmod 2147483647 ∧ a.tmod 2147483647 < 2147483647 := by
  cases a with
  | ofNat n =>
    have h1 : (Int.ofNat n).tmod 2147483647 = ((n % 2147483647 : Nat) : Int) := rfl
    have h2 : n % 2147483647 < 2147483647 := Nat.mod_lt n (by norm_num)
    rw [h1]
    omega
  | negSucc n =>
    have h1 : (Int.negSucc n).tmod 2147483647
        = -(((n + 1) % 2147483647 : Nat) : Int) := rfl
    have h2 : (n + 1) % 2147483647 < 2147483647 := Nat.mod_lt (n + 1) (by norm_num)
    rw [h1]
    omega

/-- Helper: for any seed whose truncating remainder is not -2147483646, the
constructor leaves the state in [1, 2147483646]. -/
theorem mk_stateInRange (seed : Int) (h : seed.tmod 2147483647 ≠ -2147483646) :
    stateInRange (mkSeededRandom seed) := by
  have hb := tmod_2147483647_bounds seed
  unfold mkSeededRandom stateInRange
  by_cases h0 : seed.tmod 2147483647 ≤ 0 <;>
    simp only [h0, if_true, if_false, reduceIte] <;> omega

/-- Helper: the LCG state update maps [1, 2147483646] into itself. The state
never reaches 0 because 2147483647 and 16807 are coprime, witnessed by the
Bezout identity 5790 * 2147483647 - 739806647 * 16807 = 1. -/
theorem nextState_inRange (r : SeededRandom) (h : stateInRange r) :
    stateInRange r.nextState := by
  obtain ⟨h1, h2⟩ := h
  have hnn : (0 : Int) ≤ r.seed * 16807 := by positivity
  have hemod : (r.seed * 16807).tmod 2147483647 = (r.seed * 16807) % 2147483647 :=
    Int.tmod_eq_emod hnn (by norm_num)
  have hge : 0 ≤ (r.seed * 16807) % 2147483647 := Int.emod_nonneg _ (by norm_num)
  have hlt : (r.seed * 16807) % 2147483647 < 2147483647 :=
    Int.emod_lt_of_pos _ (by norm_num)
  have hne : (r.seed * 16807) % 2147483647 ≠ 0 := by
    intro h0
    have hdvd : (2147483647 : Int) ∣ r.seed * 16807 := Int.dvd_of_emod_eq_zero h0
    have key : (2147483647 : Int) ∣ r.seed := by
      have hrep : r.seed = r.seed * 5790 * 2147483647 - 739806647 * (r.seed * 16807) := by
        ring_nf
      rw [hrep]
      exact dvd_sub (dvd_mul_left 2147483647 (r.seed * 5790)) (hdvd.mul_left 739806647)
    have := Int.le_of_dvd (by omega) key
    omega
  constructor
  · show 1 ≤ (r.seed * 16807).tmod 2147483647
    omega
  · show (r.seed * 16807).tmod 2147483647 ≤ 2147483646
    omega

/-- Helper: from a state in [1, 2147483646], next() returns a value in [0, 1). -/
theorem nextVal_bounds (r : SeededRandom) (h : stateInRange r) :
    0 ≤ r.nextVal ∧ r.nextVal < 1 := by
  have hs := nextState_inRange r h
  obtain ⟨hs1, hs2⟩ := hs
  have hs1' : (1 : Int) ≤ (r.seed * 16807).tmod 2147483647 := hs1
  have hs2' : (r.seed * 16807).tmod 2147483647 ≤ 2147483646 := hs2
  unfold SeededRandom.nextVal
  constructor
  · apply div_nonneg _ (by norm_num)
    exact_mod_cast Int.sub_nonneg.mpr hs1'
  · rw [div_lt_one (by norm_num)]
    have : ((r.seed * 16807).tmod 2147483647 - 1 : Int) < 2147483646 := by omega
    exact_mod_cast this

/-- Helper: from a state in [1, 2147483646], nextInt(min, max) with min < max
returns an integer in [min, max). -/
theorem nextInt_bounds (r : SeededRandom) (h : stateInRange r)
    (min max : Int) (hlt : min < max) :
    min ≤ (r.nextInt min max).1 ∧ (r.nextInt min max).1 < max := by
  obtain ⟨hv0, hv1⟩ := nextVal_bounds r h
  have hd : (0 : ℚ) < (max : ℚ) - (min : ℚ) := by
    have : ((min : ℚ)) < (max : ℚ) := by exact_mod_cast hlt
    linarith
  have hx0 : 0 ≤ r.nextVal * ((max : ℚ) - (min : ℚ)) := by positivity
  have hx1 : r.nextVal * ((max : ℚ) - (min : ℚ)) < (max : ℚ) - (min : ℚ) := by
    calc r.nextVal * ((max : ℚ) - (min : ℚ)) < 1 * ((max : ℚ) - (min : ℚ)) := by
          exact mul_lt_mul_of_pos_right hv1 hd
      _ = (max : ℚ) - (min : ℚ) := one_mul _
  have hf0 : 0 ≤ ⌊r.nextVal * ((max : ℚ) - (min : ℚ))⌋ := Int.floor_nonneg.mpr hx0
  have hf1 : ⌊r.nextVal * ((max : ℚ) - (min : ℚ))⌋ < max - min := by
    apply Int.floor_lt.mpr
    push_cast
    exact hx1
  unfold SeededRandom.nextInt
  constructor
  · simp only
    omega
  · simp only
    omega

/-- C3 counterexample: the claim fails at seed -2147483646: the JS remainder
-2147483646 % 2147483647 is -2147483646, adding 2147483646 leaves the state
at 0, which is outside [1, 2147483646], and the first next() then returns
-1 / 2147483646, which is negative. -/
theorem C3_counterexample :
    ¬ (1 ≤ (mkSeededRandom (-2147483646)).seed) ∧
    (mkSeededRandom (-2147483646)).nextVal < 0 := by
  constructor
  · decide
  · have h1 : mkSeededRandom (-2147483646) = ⟨0⟩ := by decide
    have h2 : ((0 : Int) * 16807).tmod 2147483647 = 0 := by decide
    rw [h1, SeededRandom.nextVal, h2]
    norm_num

/-- C3 (amended): for every integer seed whose JS truncating remainder by
2147483647 is not -2147483646, the constructor leaves the state in
[1, 2147483646]; the state is still in that range after any number k of
next() state updates, so every call to next() returns a value in [0, 1) and
every call to nextInt(min, max) with min < max returns an integer in
[min, max). -/
theorem C3_rng_range (seed : Int) (h : seed.tmod 2147483647 ≠ -2147483646)
    (k : Nat) (min max : Int) (hlt : min < max) :
    stateInRange ((SeededRandom.nextState)^[k] (mkSeededRandom seed)) ∧
    (0 ≤ ((SeededRandom.nextState)^[k] (mkSeededRandom seed)).nextVal ∧
     ((SeededRandom.nextState)^[k] (mkSeededRandom seed)).nextVal < 1) ∧
    (min ≤ (((SeededRandom.nextState)^[k] (mkSeededRandom seed)).nextInt min max).1 ∧
     (((SeededRandom.nextState)^[k] (mkSeededRandom seed)).nextInt min max).1 < max) := by
  have hiter : ∀ n : Nat, stateInRange ((SeededRandom.nextState)^[n] (mkSeededRandom seed)) := by
    intro n
    induction n with
    | zero => exact mk_stateInRange seed h
    | succ m ih =>
      rw [Function.iterate_succ_apply']
      exact nextState_inRange _ ih
  exact ⟨hiter k, nextVal_bounds _ (hiter k), nextInt_bounds _ (hiter k) min max hlt⟩

/-- Witness for C3 at seed 42, two state updates, and the spec's example range
nextInt(5, 10). -/
theorem C3_rng_range_witness :
    ((42 : Int).tmod 2147483647 ≠ -2147483646) ∧ ((5 : Int) < 10) ∧
    (stateInRange ((SeededRandom.nextState)^[2] (mkSeededRandom 42)) ∧
     (0 ≤ ((SeededRandom.nextState)^[2] (mkSeededRandom 42)).nextVal ∧
      ((SeededRandom.nextState)^[2] (mkSeededRandom 42)).nextVal < 1) ∧
     ((5 : Int) ≤ (((SeededRandom.nextState)^[2] (mkSeededRandom 42)).nextInt 5 10).1 ∧
      (((SeededRandom.nextState)^[2] (mkSeededRandom 42)).nextInt 5 10).1 < 10)) :=
  ⟨by decide, by decide, C3_rng_range 42 (by decide) 2 5 10 (by decide)⟩

/-- Helper: heldEVs distributes over append. -/
theorem heldEVs_append (l1 l2 : List Chargepoint) :
    heldEVs (l1 ++ l2) = heldEVs l1 ++ heldEVs l2 :=
  List.filterMap_append l1 l2 _

/-- Helper: an available chargepoint holds no vehicle. -/
theorem heldEVs_single_none (cp : Chargepoint) (h : cp.currentEV = none) :
    heldEVs [cp] = [] := by
  simp [heldEVs, h]

/-- Helper: an occupied chargepoint holds exactly its vehicle. -/
theorem heldEVs_single_some (cp : Chargepoint) (ev : ElectricVehicle)
    (h : cp.currentEV = some ev) : heldEVs [cp] = [ev] := by
  simp [heldEVs, h]

/-- Helper: sumReceived distributes over append. -/
theorem sumReceived_append (l1 l2 : List ElectricVehicle) :
    sumReceived (l1 ++ l2) = sumReceived l1 + sumReceived l2 := by
  simp [sumReceived]

/-- Helper: isAvailable is the absence of a held vehicle. -/
theorem isAvailable_iff (cp : Chargepoint) :
    cp.isAvailable = true ↔ cp.currentEV = none := by
  simp [Chargepoint.isAvailable, Option.isNone_iff_eq_none]

/-- Helper: assignEV succeeds on an idle chargepoint and a vehicle with a
positive need, storing the vehicle. -/
theorem assignEV_success (cp : Chargepoint) (ev : ElectricVehicle)
    (h1 : cp.isAvailable = true) (h2 : 0 < ev.energyNeededKwh) :
    cp.assignEV ev = (true, { cp with currentEV := some ev }) := by
  rw [Chargepoint.assignEV, if_neg (by simp [h1]), if_neg (not_le.mpr h2)]

/-- Helper: on a chargepoint satisfying the engine invariant,
processChargingTickR delivers a nonnegative amount, preserves the invariant,
keeps the rated power, and books every unit of delivered energy into the
received energy of either the released vehicle or the still-held vehicle. -/
theorem processChargingTickR_spec (cp : Chargepoint) (hcp : CPinv cp) :
    0 ≤ cp.processChargingTickR.1 ∧
    CPinv cp.processChargingTickR.2.1 ∧
    cp.processChargingTickR.2.1.powerKw = cp.powerKw ∧
    sumReceived cp.processChargingTickR.2.2
      + sumReceived (heldEVs [cp.processChargingTickR.2.1])
      = sumReceived (heldEVs [cp]) + cp.processChargingTickR.1 := by
  obtain ⟨hpw, hev⟩ := hcp
  cases hcv : cp.currentEV with
  | none =>
    unfold Chargepoint.processChargingTickR
    rw [hcv]
    refine ⟨le_refl 0, ⟨hpw, ?_⟩, rfl, ?_⟩
    · intro ev h
      exact hev ev (by rw [hcv] at h ⊢; exact h)
    · simp [sumReceived, heldEVs, hcv]
  | some ev =>
    obtain ⟨hr0, hr1⟩ := hev ev hcv
    have hamt : 0 ≤ cp.powerKw * (1 / (TICKS_PER_HOUR : ℚ)) := by
      rw [hpw]
      norm_num [POWER_PER_CHARGEPOINT_KW, TICKS_PER_HOUR]
    have e1 : (ev.charge (cp.powerKw * (1 / (TICKS_PER_HOUR : ℚ)))).1
        = min (cp.powerKw * (1 / (TICKS_PER_HOUR : ℚ)))
            (ev.energyNeededKwh - ev.energyReceivedKwh) := rfl
    have e2 : (ev.charge (cp.powerKw * (1 / (TICKS_PER_HOUR : ℚ)))).2.energyReceivedKwh
        = ev.energyReceivedKwh + (ev.charge (cp.powerKw * (1 / (TICKS_PER_HOUR : ℚ)))).1 := rfl
    have e3 : (ev.charge (cp.powerKw * (1 / (TICKS_PER_HOUR : ℚ)))).2.energyNeededKwh
        = ev.energyNeededKwh := rfl
    have hd0 : 0 ≤ (ev.charge (cp.powerKw * (1 / (TICKS_PER_HOUR : ℚ)))).1 := by
      rw [e1]
      exact le_min hamt (by linarith)
    have hdle : (ev.charge (cp.powerKw * (1 / (TICKS_PER_HOUR : ℚ)))).1
        ≤ ev.energyNeededKwh - ev.energyReceivedKwh := by
      rw [e1]
      exact min_le_right _ _
    unfold Chargepoint.processChargingTickR
    rw [hcv]
    by_cases hfull : (ev.charge (cp.powerKw * (1 / (TICKS_PER_HOUR : ℚ)))).2.isFullyCharged = true
    · simp only [hfull, if_true]
      refine ⟨hd0, ⟨hpw, ?_⟩, rfl, ?_⟩
      · intro ev' h
        simp [Chargepoint.releaseEV] at h
      · rw [heldEVs_single_none cp.releaseEV rfl,
          heldEVs_single_some cp ev hcv]
        simp only [sumReceived, List.map_cons, List.map_nil, List.sum_cons, List.sum_nil]
        rw [e2]
        ring
    · have hfull' : (ev.charge (cp.powerKw * (1 / (TICKS_PER_HOUR : ℚ)))).2.isFullyCharged
          = false := by simpa using hfull
      simp only [hfull', Bool.false_eq_true, if_false]
      refine ⟨hd0, ⟨hpw, ?_⟩, by trivial, ?_⟩
      · intro ev' h
        simp only at h
        cases h
        constructor
        · rw [e2]; linarith
        · rw [e2, e3]; linarith
      · rw [heldEVs_single_some _ (ev.charge (cp.powerKw * (1 / (TICKS_PER_HOUR : ℚ)))).2 rfl,
          heldEVs_single_some cp ev hcv]
        simp only [sumReceived, List.map_cons, List.map_nil, List.sum_cons, List.sum_nil]
        rw [e2]
        ring

/-- Helper: one iteration of the per-chargepoint loop appends exactly one
chargepoint state, delivers a nonnegative amount of energy, adds the new
state's rated power exactly when it is occupied, preserves the chargepoint
invariant, and books the delivered energy into the released or still-held
vehicles. -/
theorem tickCP_spec (hour : Nat) (acc : TickAcc) (cp : Chargepoint)
    (hcp : CPinv cp) :
    ∃ (cp2 : Chargepoint) (d : ℚ) (rel : List ElectricVehicle),
      (tickCP hour acc cp).cps = acc.cps ++ [cp2] ∧
      (tickCP hour acc cp).finished = acc.finished ++ rel ∧
      (tickCP hour acc cp).energy = acc.energy + d ∧
      (tickCP hour acc cp).power
        = acc.power + (if cp2.isAvailable then 0 else cp2.powerKw) ∧
      0 ≤ d ∧ CPinv cp2 ∧
      sumReceived rel + sumReceived (heldEVs [cp2])
        = sumReceived (heldEVs [cp]) + d := by
  cases hav : cp.isAvailable with
  | false =>
    obtain ⟨hd0, hinv, hpw, hsum⟩ := processChargingTickR_spec cp hcp
    have htick : tickCP hour acc cp
        = finishCP acc acc.rng acc.nextEvId cp.processChargingTickR.1
            cp.processChargingTickR.2.1 cp.processChargingTickR.2.2 := by
      unfold tickCP
      rw [hav]
      rfl
    refine ⟨cp.processChargingTickR.2.1, cp.processChargingTickR.1,
      cp.processChargingTickR.2.2, ?_, ?_, ?_, ?_, hd0, hinv, hsum⟩ <;>
      rw [htick] <;> rfl
  | true =>
    have hnone : cp.currentEV = none := (isAvailable_iff cp).mp hav
    have hheld : sumReceived (heldEVs [cp]) = 0 := by
      rw [heldEVs_single_none cp hnone]
      simp [sumReceived]
    by_cases harr : acc.rng.nextVal
        < ARRIVAL_PROBABILITY_PER_HOUR_T1.getD hour 0 / (TICKS_PER_HOUR : ℚ)
    · rcases hg : getWeightedRandomChoice CHARGING_DEMAND_KM_DISTRIBUTION_T2
          acc.rng.nextState with e | p
      · have htick : tickCP hour acc cp
            = finishCP acc acc.rng.nextState acc.nextEvId 0 cp [] := by
          unfold tickCP
          rw [hav]
          simp only [if_true, hg, if_pos harr]
        refine ⟨cp, 0, [], ?_, ?_, ?_, ?_, le_refl 0, hcp, ?_⟩ <;>
          first
          | (rw [htick]; rfl)
          | (rw [hheld]; simp [sumReceived])
      · obtain ⟨demandKm, rng2⟩ := p
        by_cases hpos : 0 < demandKm / 100 * KWH_PER_100KM
        · have hassign := assignEV_success cp
            (mkElectricVehicle acc.nextEvId (demandKm / 100 * KWH_PER_100KM)) hav hpos
          have hcp1 : CPinv (cp.assignEV
              (mkElectricVehicle acc.nextEvId (demandKm / 100 * KWH_PER_100KM))).2 := by
            rw [hassign]
            refine ⟨hcp.1, ?_⟩
            intro ev h
            simp only at h
            cases h
            exact ⟨le_refl 0, le_of_lt hpos⟩
          obtain ⟨hd0, hinv, hpw, hsum⟩ := processChargingTickR_spec _ hcp1
          have hheld1 : sumReceived (heldEVs [(cp.assignEV
              (mkElectricVehicle acc.nextEvId (demandKm / 100 * KWH_PER_100KM))).2]) = 0 := by
            rw [hassign, heldEVs_single_some _
              (mkElectricVehicle acc.nextEvId (demandKm / 100 * KWH_PER_100KM)) rfl]
            simp [sumReceived, mkElectricVehicle]
          have htick : tickCP hour acc cp
              = finishCP acc rng2 (acc.nextEvId + 1)
                  (cp.assignEV (mkElectricVehicle acc.nextEvId
                    (demandKm / 100 * KWH_PER_100KM))).2.processChargingTickR.1
                  (cp.assignEV (mkElectricVehicle acc.nextEvId
                    (demandKm / 100 * KWH_PER_100KM))).2.processChargingTickR.2.1
                  (cp.assignEV (mkElectricVehicle acc.nextEvId
                    (demandKm / 100 * KWH_PER_100KM))).2.processChargingTickR.2.2 := by
            unfold tickCP
            rw [hav]
            simp only [if_true, hg, if_pos harr, if_pos hpos, hassign]
          refine ⟨(cp.assignEV (mkElectricVehicle acc.nextEvId
              (demandKm / 100 * KWH_PER_100KM))).2.processChargingTickR.2.1,
            (cp.assignEV (mkElectricVehicle acc.nextEvId
              (demandKm / 100 * KWH_PER_100KM))).2.processChargingTickR.1,
            (cp.assignEV (mkElectricVehicle acc.nextEvId
              (demandKm / 100 * KWH_PER_100KM))).2.processChargingTickR.2.2,
            ?_, ?_, ?_, ?_, hd0, hinv, ?_⟩
          · rw [htick]; rfl
          · rw [htick]; rfl
          · rw [htick]; rfl
          · rw [htick]; rfl
          · rw [hsum, hheld1, hheld]
        · have htick : tickCP hour acc cp
              = finishCP acc rng2 acc.nextEvId 0 cp [] := by
            unfold tickCP
            rw [hav]
            simp only [if_true, hg, if_pos harr, if_neg hpos]
          refine ⟨cp, 0, [], ?_, ?_, ?_, ?_, le_refl 0, hcp, ?_⟩ <;>
            first
            | (rw [htick]; rfl)
            | (rw [hheld]; simp [sumReceived])
    · have htick : tickCP hour acc cp
          = finishCP acc acc.rng.nextState acc.nextEvId 0 cp [] := by
        unfold tickCP
        rw [hav]
        simp only [if_true, if_neg harr]
      refine ⟨cp, 0, [], ?_, ?_, ?_, ?_, le_refl 0, hcp, ?_⟩ <;>
        first
        | (rw [htick]; rfl)
        | (rw [hheld]; simp [sumReceived])

/-- Helper: the fold of the per-chargepoint loop over a list of chargepoints
satisfying CPinv appends one new state per chargepoint, delivers a
nonnegative total, raises the power accumulator by at most the rated power
per chargepoint, preserves CPinv, and books all delivered energy into the
released or still-held vehicles. -/
theorem foldl_tickCP_spec (hour : Nat) :
    ∀ (l : List Chargepoint) (acc : TickAcc), (∀ cp ∈ l, CPinv cp) →
      ∃ (cps2 : List Chargepoint) (E : ℚ) (rel : List ElectricVehicle),
        (l.foldl (tickCP hour) acc).cps = acc.cps ++ cps2 ∧
        (l.foldl (tickCP hour) acc).finished = acc.finished ++ rel ∧
        (l.foldl (tickCP hour) acc).energy = acc.energy + E ∧
        0 ≤ E ∧
        acc.power ≤ (l.foldl (tickCP hour) acc).power ∧
        (l.foldl (tickCP hour) acc).power
          ≤ acc.power + POWER_PER_CHARGEPOINT_KW * (l.length : ℚ) ∧
        cps2.length = l.length ∧
        (∀ cp ∈ cps2, CPinv cp) ∧
        sumReceived rel + sumReceived (heldEVs cps2)
          = sumReceived (heldEVs l) + E
  | [], acc, _ => by
    refine ⟨[], 0, [], ?_, ?_, ?_, le_refl 0, le_refl _, ?_, rfl, ?_, ?_⟩
    · simp
    · simp
    · simp
    · simp
    · intro cp h
      simp at h
    · simp [heldEVs, sumReceived]
  | cp :: l, acc, hl => by
    obtain ⟨cp2, d, rel1, hcps1, hfin1, he1, hp1, hd0, hinv2, hsum1⟩ :=
      tickCP_spec hour acc cp (hl cp (by simp))
    obtain ⟨cps2', E, rel2, hcps2, hfin2, he2, hE0, hplo, hphi, hlen, hinvs, hsum2⟩ :=
      foldl_tickCP_spec hour l (tickCP hour acc cp)
        (fun c hc => hl c (by simp [hc]))
    have hifle : (if cp2.isAvailable then (0 : ℚ) else cp2.powerKw)
        ≤ POWER_PER_CHARGEPOINT_KW := by
      rcases hinv2 with ⟨hpw, _⟩
      by_cases h : cp2.isAvailable = true <;>
        simp [h, hpw] <;> norm_num [POWER_PER_CHARGEPOINT_KW]
    have hifge : (0 : ℚ) ≤ (if cp2.isAvailable then (0 : ℚ) else cp2.powerKw) := by
      rcases hinv2 with ⟨hpw, _⟩
      by_cases h : cp2.isAvailable = true <;>
        simp [h, hpw] <;> norm_num [POWER_PER_CHARGEPOINT_KW]
    refine ⟨cp2 :: cps2', d + E, rel1 ++ rel2, ?_, ?_, ?_, by linarith, ?_, ?_, ?_, ?_, ?_⟩
    · rw [List.foldl_cons, hcps2, hcps1]
      simp
    · rw [List.foldl_cons, hfin2, hfin1]
      simp
    · rw [List.foldl_cons, he2, he1]
      ring
    · rw [List.foldl_cons]
      calc acc.power ≤ acc.power + (if cp2.isAvailable then (0 : ℚ) else cp2.powerKw) := by
            linarith
        _ = (tickCP hour acc cp).power := hp1.symm
        _ ≤ (l.foldl (tickCP hour) (tickCP hour acc cp)).power := hplo
    · rw [List.foldl_cons]
      have : (((cp :: l).length : ℚ)) = (l.length : ℚ) + 1 := by
        rw [List.length_cons]
        push_cast
        ring
      rw [this]
      calc (l.foldl (tickCP hour) (tickCP hour acc cp)).power
          ≤ (tickCP hour acc cp).power + POWER_PER_CHARGEPOINT_KW * (l.length : ℚ) := hphi
        _ = acc.power + (if cp2.isAvailable then (0 : ℚ) else cp2.powerKw)
              + POWER_PER_CHARGEPOINT_KW * (l.length : ℚ) := by rw [hp1]
        _ ≤ acc.power + POWER_PER_CHARGEPOINT_KW * ((l.length : ℚ) + 1) := by
              linarith
    · simp [hlen]
    · intro c hc
      rcases List.mem_cons.mp hc with h | h
      · rw [h]; exact hinv2
      · exact hinvs c h
    · have hsplit : heldEVs (cp2 :: cps2') = heldEVs [cp2] ++ heldEVs cps2' := by
        rw [← heldEVs_append]
        rfl
      have hsplitl : heldEVs (cp :: l) = heldEVs [cp] ++ heldEVs l := by
        rw [← heldEVs_append]
        rfl
      rw [hsplit, hsplitl, sumReceived_append, sumReceived_append, sumReceived_append]
      linarith

/-- Helper: filtering with a constantly-none function yields the empty list. -/
theorem filterMap_none_eq_nil {A B : Type} (l : List A) :
    l.filterMap (fun _ => (none : Option B)) = [] := by
  induction l with
  | nil => rfl
  | cons a t ih => simp [List.filterMap_cons, ih]

/-- Helper: one simulation tick preserves the engine invariant and never
decreases either statistics field. -/
theorem simTick_spec (tick : Nat) (n : Nat) (st : SimState) (hinv : SimInv n st) :
    SimInv n (simTick tick st) ∧
    st.stats.totalEnergyConsumedKwh ≤ (simTick tick st).stats.totalEnergyConsumedKwh ∧
    st.stats.actualMaxPowerDemandKw ≤ (simTick tick st).stats.actualMaxPowerDemandKw := by
  obtain ⟨hlen, hcps, hcons, hmax0, hmaxle⟩ := hinv
  obtain ⟨cps2, E, rel, hcpse, hfine, hee, hE0, hplo, hphi, hlen2, hinvs, hsum⟩ :=
    foldl_tickCP_spec ((tick % (HOURS_PER_DAY * TICKS_PER_HOUR)) / TICKS_PER_HOUR)
      st.chargepoints ⟨st.rng, st.nextEvId, 0, 0, [], st.finished⟩ hcps
  set A := st.chargepoints.foldl
      (tickCP ((tick % (HOURS_PER_DAY * TICKS_PER_HOUR)) / TICKS_PER_HOUR))
      ⟨st.rng, st.nextEvId, 0, 0, [], st.finished⟩ with hA
  have hsim : simTick tick st
      = ⟨A.rng, A.nextEvId, A.cps, st.stats.recordTickData A.energy A.power,
         A.finished⟩ := rfl
  have hrec : st.stats.recordTickData A.energy A.power
      = ⟨st.stats.totalEnergyConsumedKwh + A.energy,
         if st.stats.actualMaxPowerDemandKw < A.power then A.power
         else st.stats.actualMaxPowerDemandKw⟩ := rfl
  simp only at hcpse hfine hee hplo hphi
  rw [List.nil_append] at hcpse
  rw [zero_add] at hee hphi
  have hcap : A.power ≤ POWER_PER_CHARGEPOINT_KW * (n : ℚ) := by
    rw [← hlen]
    exact hphi
  have hmax0' : 0 ≤ (if st.stats.actualMaxPowerDemandKw < A.power then A.power
      else st.stats.actualMaxPowerDemandKw) := by
    by_cases hc : st.stats.actualMaxPowerDemandKw < A.power
    · rw [if_pos hc]; linarith
    · rw [if_neg hc]; exact hmax0
  have hmaxle' : (if st.stats.actualMaxPowerDemandKw < A.power then A.power
      else st.stats.actualMaxPowerDemandKw) ≤ POWER_PER_CHARGEPOINT_KW * (n : ℚ) := by
    by_cases hc : st.stats.actualMaxPowerDemandKw < A.power
    · rw [if_pos hc]; exact hcap
    · rw [if_neg hc]; exact hmaxle
  have hmaxmono : st.stats.actualMaxPowerDemandKw
      ≤ (if st.stats.actualMaxPowerDemandKw < A.power then A.power
         else st.stats.actualMaxPowerDemandKw) := by
    by_cases hc : st.stats.actualMaxPowerDemandKw < A.power
    · rw [if_pos hc]; linarith
    · rw [if_neg hc]
  refine ⟨⟨?_, ?_, ?_, ?_, ?_⟩, ?_, ?_⟩
  · rw [hsim]
    show A.cps.length = n
    rw [hcpse, hlen2, hlen]
  · rw [hsim]
    intro cp hcp
    rw [show (⟨A.rng, A.nextEvId, A.cps,
        st.stats.recordTickData A.energy A.power, A.finished⟩ : SimState).chargepoints
      = A.cps from rfl, hcpse] at hcp
    exact hinvs cp hcp
  · rw [hsim, hrec]
    show st.stats.totalEnergyConsumedKwh + A.energy
      = sumReceived (A.finished ++ heldEVs A.cps)
    rw [hee, hfine, hcpse, sumReceived_append, sumReceived_append]
    have hconsv : st.stats.totalEnergyConsumedKwh
        = sumReceived st.finished + sumReceived (heldEVs st.chargepoints) := by
      rw [hcons]
      show sumReceived (st.finished ++ heldEVs st.chargepoints) = _
      rw [sumReceived_append]
    rw [hconsv]
    linarith
  · rw [hsim, hrec]
    exact hmax0'
  · rw [hsim, hrec]
    exact hmaxle'
  · rw [hsim, hrec]
    show st.stats.totalEnergyConsumedKwh
      ≤ st.stats.totalEnergyConsumedKwh + A.energy
    rw [hee]
    linarith
  · rw [hsim, hrec]
    exact hmaxmono

/-- Helper: the engine invariant holds after any number of ticks of a run. -/
theorem runSim_inv (n : Nat) (seed : Int) : ∀ t : Nat, SimInv n (runSim n seed t)
  | 0 => by
    refine ⟨?_, ?_, ?_, le_refl 0, ?_⟩
    · simp [runSim, initState, mkChargingStation]
    · intro cp hcp
      simp only [runSim, initState, mkChargingStation, List.mem_map] at hcp
      obtain ⟨i, _, rfl⟩ := hcp
      refine ⟨rfl, ?_⟩
      intro ev h
      simp [mkChargepoint] at h
    · show (0 : ℚ) = sumReceived (allVehicles (initState n seed))
      have hnone : ((fun cp => cp.currentEV) ∘ mkChargepoint)
          = fun _ : Nat => (none : Option ElectricVehicle) := funext fun i => rfl
      simp [allVehicles, initState, mkChargingStation, heldEVs,
        List.filterMap_map, hnone, filterMap_none_eq_nil, sumReceived,
        mkSimulationStatistics]
    · show (0 : ℚ) ≤ POWER_PER_CHARGEPOINT_KW * (n : ℚ)
      unfold POWER_PER_CHARGEPOINT_KW
      positivity
  | t + 1 => (simTick_spec t n (runSim n seed t) (runSim_inv n seed t)).1

/-- C1: for every completed run (any chargepoint count, seed and tick budget),
the final totalEnergyConsumedKwh equals the sum over every vehicle created
during the run (released ones at their final recorded state, plus the ones
still plugged in at the end) of its final energyReceivedKwh. -/
theorem C1_energy_conservation (numChargepoints : Nat) (seed : Int)
    (maxTicks : Nat) :
    (runSim numChargepoints seed maxTicks).stats.totalEnergyConsumedKwh
      = sumReceived (allVehicles (runSim numChargepoints seed maxTicks)) :=
  (runSim_inv numChargepoints seed maxTicks).2.2.1

/-- C9: from each tick to the next, totalEnergyConsumedKwh never decreases
and actualMaxPowerDemandKw never decreases. -/
theorem C9_stats_monotone (numChargepoints : Nat) (seed : Int) (t : Nat) :
    (runSim numChargepoints seed t).stats.totalEnergyConsumedKwh
      ≤ (runSim numChargepoints seed (t + 1)).stats.totalEnergyConsumedKwh ∧
    (runSim numChargepoints seed t).stats.actualMaxPowerDemandKw
      ≤ (runSim numChargepoints seed (t + 1)).stats.actualMaxPowerDemandKw := by
  have h := simTick_spec t numChargepoints (runSim numChargepoints seed t)
    (runSim_inv numChargepoints seed t)
  exact ⟨h.2.1, h.2.2⟩

/-- C10: the final actualMaxPowerDemandKw of any run is at most the
theoretical maximum numChargepoints * POWER_PER_CHARGEPOINT_KW. -/
theorem C10_max_power_bounded (numChargepoints : Nat) (seed : Int)
    (maxTicks : Nat) :
    (runSim numChargepoints seed maxTicks).stats.actualMaxPowerDemandKw
      ≤ (numChargepoints : ℚ) * POWER_PER_CHARGEPOINT_KW := by
  have h := (runSim_inv numChargepoints seed maxTicks).2.2.2.2
  rw [mul_comm]
  exact h
